import Mathlib

/-!
Shallow embedding of the Account Ledger Engine of the SecureBank demo
repository (src/server/routers/account.ts, src/lib/db/schema.ts).

Modelling conventions:
* The SQLite database is a `DBState`: the `accounts` and `transactions`
  tables as lists in insertion (rowid) order, together with the next
  autoincrement ids.
* Monetary amounts are modelled as exact rationals (`ℚ`).  The schema
  stores `balance` and `amount` in `REAL` columns (IEEE-754 binary64);
  the exactness of that representation is examined separately in the
  `NumericModel` section below, which models binary64 rounding.
* `better-sqlite3` transactions are synchronous, and the balance update
  is a single SQL-side increment (`balance = balance + amount`), so each
  `fundAccount` call is one atomic state transition; concurrency over
  one database is any interleaving of such atomic transitions, i.e. any
  sequential order of the calls.
* Timestamps (`CURRENT_TIMESTAMP` text values) are modelled as natural
  numbers; comparison order is all the code uses.
* `crypto.randomInt` in `generateAccountNumber` is modelled as an
  oracle `gen : Nat → String` giving the successive outputs of the
  generator, and the unbounded `while (!isUnique)` loop is modelled
  with explicit fuel: a `none` result means the loop is still running
  after `fuel` iterations.
-/

/-- Rational addition computed through `mkRat`, which the kernel can
evaluate (the library `Rat.add` is `@[irreducible]`).  Proved equal to
`+` in `radd_eq_add`; used in the model so that concrete runs of the
ledger evaluate by `decide`. -/
def radd (a b : ℚ) : ℚ := mkRat (a.num * b.den + b.num * a.den) (a.den * b.den)

theorem radd_eq_add (a b : ℚ) : radd a b = a + b := by
  have ha : (a.den : ℤ) ≠ 0 := Int.natCast_ne_zero.mpr a.den_nz
  have hb : (b.den : ℤ) ≠ 0 := Int.natCast_ne_zero.mpr b.den_nz
  rw [radd, Rat.mkRat_eq_divInt]
  push_cast
  rw [← Rat.divInt_add_divInt _ _ ha hb, Rat.num_divInt_den, Rat.num_divInt_den]

/-- Column `account_type` of table `accounts` (schema.ts): `checking`
or `savings`. -/
inductive AccountType where
  | checking
  | savings
deriving DecidableEq

/-- Column `status` of table `accounts` (schema.ts, default
`pending`): `pending`, `active` or `closed`. -/
inductive AccountStatus where
  | pending
  | active
  | closed
deriving DecidableEq

/-- Column `type` of table `transactions` (schema.ts): `deposit` or
`withdrawal`. -/
inductive TxType where
  | deposit
  | withdrawal
deriving DecidableEq

/-- Column `status` of table `transactions` (schema.ts): `pending`,
`completed` or `failed`. -/
inductive TxStatus where
  | pending
  | completed
  | failed
deriving DecidableEq

/-- Discriminant of `fundingSource.type` in `fundingSchema`
(lib/validations.ts): `card` or `bank`. -/
inductive FundingSourceType where
  | card
  | bank
deriving DecidableEq

/-- Rendering of the funding-source type used in the transaction
description template literal of account.ts line 108. -/
def FundingSourceType.name : FundingSourceType → String
  | .card => "card"
  | .bank => "bank"

/-- Funding source as validated by `fundingSchema` (lib/validations.ts):
a type plus the source's account number and optional routing number. -/
structure FundingSource where
  type : FundingSourceType
  accountNumber : String
  routingNumber : Option String
deriving DecidableEq

/-- Row of the `accounts` table (schema.ts lines 22-39). -/
structure Account where
  id : Nat
  userId : Nat
  accountNumber : String
  accountType : AccountType
  balance : ℚ
  status : AccountStatus
  createdAt : Nat
deriving DecidableEq

/-- Row of the `transactions` table (schema.ts lines 41-59). -/
structure Transaction where
  id : Nat
  accountId : Nat
  type : TxType
  amount : ℚ
  description : String
  status : TxStatus
  createdAt : Nat
  processedAt : Option Nat
deriving DecidableEq

/-- The SQLite database state seen by the account router: both tables
in insertion (rowid) order plus the autoincrement counters. -/
structure DBState where
  accounts : List Account
  transactions : List Transaction
  nextAccountId : Nat
  nextTxId : Nat
deriving DecidableEq

/-- Empty database, as created by the schema: autoincrement ids start
at 1. -/
def DBState.init : DBState := ⟨[], [], 1, 1⟩

/-- Errors thrown by the account router, named after the spec's error
taxonomy (§7).  `notFound` is `TRPCError NOT_FOUND "Account not
found"`; `inactiveAccount` is `TRPCError BAD_REQUEST "Account is not
active"`; `conflict` is `TRPCError CONFLICT "You already have a ...
account"`.  The code has no `ExhaustedIdentifierSpace` and no
`DuplicateIdentifier` error. -/
inductive ApiError where
  | notFound
  | inactiveAccount
  | conflict
deriving DecidableEq

/-- Successful result of `fundAccount` (account.ts lines 125-128): the
inserted transaction row and the updated balance. -/
structure FundOk where
  transaction : Transaction
  newBalance : ℚ
deriving DecidableEq

instance {ε α : Type} [DecidableEq ε] [DecidableEq α] : DecidableEq (Except ε α) := fun
  | .ok a, .ok b =>
    if h : a = b then .isTrue (by rw [h]) else .isFalse (by intro hc; cases hc; exact h rfl)
  | .error a, .error b =>
    if h : a = b then .isTrue (by rw [h]) else .isFalse (by intro hc; cases hc; exact h rfl)
  | .ok _, .error _ => .isFalse (by intro hc; cases hc)
  | .error _, .ok _ => .isFalse (by intro hc; cases hc)

/-- Ownership lookup shared by `fundAccount` (account.ts lines 78-82)
and `getTransactions` (lines 140-144): first row of `accounts` with
`id = accountId AND user_id = userId`. -/
def ownedAccount (s : DBState) (userId accountId : Nat) : Option Account :=
  s.accounts.find? (fun a => a.id == accountId && a.userId == userId)

/-- The `fundAccount` mutation (account.ts lines 68-130).  Returns the
handler's result together with the post-call database state; every
error path leaves the state unchanged, since the throw happens before
the write (or the transaction rolls back).  `now` stands for both the
insert's `CURRENT_TIMESTAMP` and `new Date().toISOString()`.  Inside
`db.transaction` the code inserts the transaction row and then updates
the balance with the SQL-side expression `balance + amount`, reading
the stored balance at update time (not the earlier application-level
read); `.returning()` on the update yields the updated row, i.e. the
first row with `id = accountId` after the update. -/
def fundAccount (s : DBState) (userId accountId : Nat) (amount : ℚ)
    (src : FundingSource) (now : Nat) : Except ApiError FundOk × DBState :=
  match ownedAccount s userId accountId with
  | none => (.error .notFound, s)
  | some account =>
    if account.status ≠ AccountStatus.active then
      (.error .inactiveAccount, s)
    else
      let tx : Transaction :=
        { id := s.nextTxId
          accountId := accountId
          type := .deposit
          amount := amount
          description := "Funding from " ++ src.type.name
          status := .completed
          createdAt := now
          processedAt := some now }
      let newAccounts := s.accounts.map (fun a =>
        if a.id == accountId then { a with balance := radd a.balance amount } else a)
      let newBalance :=
        match newAccounts.find? (fun a => a.id == accountId) with
        | some a => a.balance
        | none => 0
      (.ok { transaction := tx, newBalance := newBalance },
        { s with
          transactions := s.transactions ++ [tx]
          accounts := newAccounts
          nextTxId := s.nextTxId + 1 })

/-- Transaction row enriched with the owning account's type, as built
by the map in `getTransactions` (account.ts lines 160-163). -/
structure EnrichedTransaction where
  tx : Transaction
  accountType : AccountType
deriving DecidableEq

/-- Descending `created_at` comparison used to model `orderBy(desc(
transactions.createdAt))`. -/
def createdAtDesc (t₁ t₂ : Transaction) : Prop := t₂.createdAt ≤ t₁.createdAt

instance : DecidableRel createdAtDesc := fun _ _ => Nat.decLe _ _

instance : IsTotal Transaction createdAtDesc :=
  ⟨fun a b => Nat.le_total b.createdAt a.createdAt⟩

instance : IsTrans Transaction createdAtDesc :=
  ⟨fun _ _ _ h₁ h₂ => Nat.le_trans h₂ h₁⟩

/-- The `getTransactions` query (account.ts lines 132-166): ownership
check, then the account's transactions ordered by `created_at`
descending, enriched with the account's type.  The SQL `ORDER BY`
sorts by the single key `created_at`; SQL does not specify the
relative order of rows with equal keys, and the query supplies no
secondary key.  The embedding realises the sort as a stable sort of
the table in insertion order, which is one behaviour consistent with
the source. -/
def getTransactions (s : DBState) (userId accountId : Nat) :
    Except ApiError (List EnrichedTransaction) :=
  match ownedAccount s userId accountId with
  | none => .error .notFound
  | some account =>
    let rows := s.transactions.filter (fun t => t.accountId == accountId)
    let ordered := List.insertionSort createdAtDesc rows
    .ok (ordered.map (fun t => { tx := t, accountType := account.accountType }))

/-- Uniqueness-check loop of `createAccount` (account.ts lines 38-46):
`while (!isUnique) { accountNumber = generateAccountNumber(); ... }`.
`gen i` is the output of the `i`-th call of `generateAccountNumber`;
the loop in the source has no iteration bound, so it is modelled with
fuel, `none` meaning the loop is still running after `fuel`
iterations. -/
def findFresh (s : DBState) (gen : Nat → String) : Nat → Nat → Option String
  | 0, _ => none
  | fuel + 1, i =>
    let cand := gen i
    if (s.accounts.find? (fun a => a.accountNumber == cand)).isSome then
      findFresh s gen fuel (i + 1)
    else
      some cand

/-- The `createAccount` mutation (account.ts lines 17-60).  The
conflict check (lines 25-36) looks for any account of the caller with
the requested type — it does not filter on `status`.  On success the
new row is inserted with `balance = 0` and `status = "active"`.  The
result is `none` when the uniqueness loop has not terminated within
`fuel` iterations (the source loop is unbounded). -/
def createAccount (fuel : Nat) (gen : Nat → String) (s : DBState)
    (userId : Nat) (accountType : AccountType) (now : Nat) :
    Option (Except ApiError Account × DBState) :=
  match s.accounts.find? (fun a => a.userId == userId && a.accountType == accountType) with
  | some _ => some (.error .conflict, s)
  | none =>
    match findFresh s gen fuel 0 with
    | none => none
    | some n =>
      let account : Account :=
        { id := s.nextAccountId
          userId := userId
          accountNumber := n
          accountType := accountType
          balance := 0
          status := .active
          createdAt := now }
      some (.ok account,
        { s with
          accounts := s.accounts ++ [account]
          nextAccountId := s.nextAccountId + 1 })

-- Sanity checks: the embedding evaluates on concrete runs.
example :
    (fundAccount ⟨[⟨1, 7, "1000", .checking, 100, .active, 0⟩], [], 2, 1⟩
      7 1 50 ⟨.bank, "123", some "123456789"⟩ 5).2.accounts =
      [⟨1, 7, "1000", .checking, 150, .active, 0⟩] := by decide

example :
    (fundAccount ⟨[⟨1, 7, "1000", .checking, 100, .active, 0⟩], [], 2, 1⟩
      9 1 50 ⟨.bank, "123", some "123456789"⟩ 5).1 = .error .notFound := by decide

example :
    getTransactions ⟨[⟨1, 7, "1000", .checking, 100, .active, 0⟩],
      [⟨1, 1, .deposit, 10, "d", .completed, 100, none⟩,
       ⟨2, 1, .deposit, 20, "d", .completed, 300, none⟩,
       ⟨3, 1, .deposit, 30, "d", .completed, 200, none⟩], 2, 4⟩ 7 1 =
      .ok [⟨⟨2, 1, .deposit, 20, "d", .completed, 300, none⟩, .checking⟩,
           ⟨⟨3, 1, .deposit, 30, "d", .completed, 200, none⟩, .checking⟩,
           ⟨⟨1, 1, .deposit, 10, "d", .completed, 100, none⟩, .checking⟩] := by decide

example :
    createAccount 5 (fun _ => "1111111111") ⟨[], [], 1, 1⟩ 7 .checking 0 =
      some (.ok ⟨1, 7, "1111111111", .checking, 0, .active, 0⟩,
        ⟨[⟨1, 7, "1111111111", .checking, 0, .active, 0⟩], [], 2, 1⟩) := by decide

example :
    createAccount 5 (fun _ => "1111111111")
      ⟨[⟨1, 7, "2222222222", .checking, 0, .closed, 0⟩], [], 2, 1⟩ 7 .checking 0 =
      some (.error .conflict,
        ⟨[⟨1, 7, "2222222222", .checking, 0, .closed, 0⟩], [], 2, 1⟩) := by decide

/-! ## Claim C10: funding-source noninterference -/

/-- C10: two `fundAccount` calls that differ only in the funding
source's `accountNumber` and/or `routingNumber` (same user, account,
amount and source type) produce identical results and identical
database states.  The handler reads only `input.fundingSource.type`
(for the transaction description, account.ts line 108); the source's
numbers influence nothing and are stored nowhere — the `Account` and
`Transaction` row types of the model, mirroring schema.ts, have no
field for them. -/
theorem fundAccount_source_noninterference
    (s : DBState) (u aid : Nat) (x : ℚ) (t : FundingSourceType)
    (an₁ an₂ : String) (rn₁ rn₂ : Option String) (now : Nat) :
    fundAccount s u aid x ⟨t, an₁, rn₁⟩ now = fundAccount s u aid x ⟨t, an₂, rn₂⟩ now := rfl

/-! ## Claim C3: funding an inactive account -/

/-- C3: when the owner's account is found but its status is `pending`
or `closed` (anything but `active`), `fundAccount` fails with the
`InactiveAccount` error (account.ts lines 91-96, thrown as
`BAD_REQUEST "Account is not active"`) and the database state is
returned unchanged: balances, the transaction table, and the counters
are exactly those of `s`. -/
theorem fundAccount_inactive_rejected
    (s : DBState) (u aid : Nat) (x : ℚ) (src : FundingSource) (now : Nat)
    (acc : Account)
    (hfind : ownedAccount s u aid = some acc)
    (hstatus : acc.status ≠ AccountStatus.active) :
    fundAccount s u aid x src now = (.error .inactiveAccount, s) := by
  simp [fundAccount, hfind, hstatus]

/-- Witness for C3: a pending and a closed account each make
`fundAccount` fail with `InactiveAccount` and leave the state
unchanged. -/
theorem fundAccount_inactive_rejected_witness :
    (ownedAccount ⟨[⟨1, 7, "1000", .checking, 100, .pending, 0⟩], [], 2, 1⟩ 7 1 =
        some ⟨1, 7, "1000", .checking, 100, .pending, 0⟩) ∧
    (⟨1, 7, "1000", .checking, 100, .pending, 0⟩ : Account).status ≠ AccountStatus.active ∧
    fundAccount ⟨[⟨1, 7, "1000", .checking, 100, .pending, 0⟩], [], 2, 1⟩ 7 1 50
        ⟨.bank, "123", some "123456789"⟩ 5 =
      (.error .inactiveAccount, ⟨[⟨1, 7, "1000", .checking, 100, .pending, 0⟩], [], 2, 1⟩) ∧
    fundAccount ⟨[⟨1, 7, "1000", .checking, 100, .closed, 0⟩], [], 2, 1⟩ 7 1 50
        ⟨.bank, "123", some "123456789"⟩ 5 =
      (.error .inactiveAccount, ⟨[⟨1, 7, "1000", .checking, 100, .closed, 0⟩], [], 2, 1⟩) :=
  ⟨by decide, by decide,
    fundAccount_inactive_rejected _ 7 1 50 _ 5
      ⟨1, 7, "1000", .checking, 100, .pending, 0⟩ (by decide) (by decide),
    fundAccount_inactive_rejected _ 7 1 50 _ 5
      ⟨1, 7, "1000", .checking, 100, .closed, 0⟩ (by decide) (by decide)⟩

/-! ## Claim C4: ownership isolation -/

/-- C4: when no account with id `aid` owned by `u` exists — whether no
account has that id at all, or the account belongs to another user —
`fundAccount` and `getTransactions` both fail with `NotFound`
(account.ts lines 84-89 and 146-151) and the state is unchanged.  The
error value is one constant, independent of which of the two cases
holds, so the caller cannot distinguish them. -/
theorem notFound_ownership_isolation
    (s : DBState) (u aid : Nat) (x : ℚ) (src : FundingSource) (now : Nat)
    (hnone : ∀ a ∈ s.accounts, ¬(a.id = aid ∧ a.userId = u)) :
    fundAccount s u aid x src now = (.error .notFound, s) ∧
    getTransactions s u aid = .error .notFound := by
  have hfind : ownedAccount s u aid = none := by
    refine List.find?_eq_none.mpr fun a ha => ?_
    have := hnone a ha
    simp only [Bool.and_eq_true, beq_iff_eq]
    intro hcontra
    exact this ⟨hcontra.1, hcontra.2⟩
  exact ⟨by simp [fundAccount, hfind], by simp [getTransactions, hfind]⟩

/-- Witness for C4: the caller is user 7; account 1 belongs to user 9
and account 2 does not exist.  Both probes fail `NotFound` with the
state unchanged. -/
theorem notFound_ownership_isolation_witness :
    (∀ a ∈ (⟨[⟨1, 9, "1000", .checking, 100, .active, 0⟩], [], 2, 1⟩ : DBState).accounts,
      ¬(a.id = 1 ∧ a.userId = 7)) ∧
    (fundAccount ⟨[⟨1, 9, "1000", .checking, 100, .active, 0⟩], [], 2, 1⟩ 7 1 50
        ⟨.card, "4111111111111111", none⟩ 5 =
      (.error .notFound, ⟨[⟨1, 9, "1000", .checking, 100, .active, 0⟩], [], 2, 1⟩) ∧
      getTransactions ⟨[⟨1, 9, "1000", .checking, 100, .active, 0⟩], [], 2, 1⟩ 7 1 =
        .error .notFound) ∧
    (∀ a ∈ (⟨[⟨1, 9, "1000", .checking, 100, .active, 0⟩], [], 2, 1⟩ : DBState).accounts,
      ¬(a.id = 2 ∧ a.userId = 7)) ∧
    (fundAccount ⟨[⟨1, 9, "1000", .checking, 100, .active, 0⟩], [], 2, 1⟩ 7 2 50
        ⟨.card, "4111111111111111", none⟩ 5 =
      (.error .notFound, ⟨[⟨1, 9, "1000", .checking, 100, .active, 0⟩], [], 2, 1⟩) ∧
      getTransactions ⟨[⟨1, 9, "1000", .checking, 100, .active, 0⟩], [], 2, 1⟩ 7 2 =
        .error .notFound) :=
  ⟨by decide,
    notFound_ownership_isolation _ 7 1 50 _ 5 (by decide),
    by decide,
    notFound_ownership_isolation _ 7 2 50 _ 5 (by decide)⟩

/-! ## Claim C1: a valid funding call deposits exactly once -/

/-- Helper: after the balance update `UPDATE accounts SET balance =
balance + x WHERE id = aid`, the row returned by `.returning()` (the
first row with that id) is the looked-up account with its balance
increased, provided `aid` identifies a unique row. -/
theorem find?_id_map_update (l : List Account) (aid : Nat) (acc : Account) (x : ℚ)
    (hmem : acc ∈ l) (hid : acc.id = aid)
    (huniq : ∀ b ∈ l, b.id = aid → b = acc) :
    (l.map (fun a =>
      if a.id == aid then { a with balance := radd a.balance x } else a)).find?
        (fun a => a.id == aid) = some { acc with balance := radd acc.balance x } := by
  induction l with
  | nil => cases hmem
  | cons b rest ih =>
    simp only [List.map_cons]
    by_cases hb : b.id = aid
    · have hbacc : b = acc := huniq b (List.mem_cons_self b rest) hb
      subst hbacc
      simp [List.find?_cons, hb]
    · have hmem' : acc ∈ rest := by
        rcases List.mem_cons.mp hmem with h | h
        · exact absurd (h ▸ hid) hb
        · exact h
      have huniq' : ∀ c ∈ rest, c.id = aid → c = acc := fun c hc =>
        huniq c (List.mem_cons_of_mem b hc)
      simpa [List.find?_cons, hb] using ih hmem' huniq'

/-- C1: for an active account `acc` owned by `u` and a validated
amount `x ≥ 0.01` (`mkRat 1 100`), `fundAccount` succeeds; the
returned transaction has status `completed`, kind `deposit` and amount
`x`; the returned `newBalance` is exactly the old balance plus `x`;
and exactly one transaction row is appended, both to the table and to
the account's log (the rows with `account_id = aid`). -/
theorem fundAccount_deposit_completes
    (s : DBState) (u aid : Nat) (x : ℚ) (src : FundingSource) (now : Nat)
    (acc : Account)
    (hfind : ownedAccount s u aid = some acc)
    (hact : acc.status = AccountStatus.active)
    (huniq : ∀ b ∈ s.accounts, b.id = aid → b = acc)
    (hx : mkRat 1 100 ≤ x) :
    ∃ tx : Transaction,
      (fundAccount s u aid x src now).1 = .ok ⟨tx, acc.balance + x⟩ ∧
      tx.status = .completed ∧ tx.type = .deposit ∧ tx.amount = x ∧
      (fundAccount s u aid x src now).2.transactions = s.transactions ++ [tx] ∧
      (fundAccount s u aid x src now).2.transactions.filter
          (fun t => t.accountId == aid) =
        s.transactions.filter (fun t => t.accountId == aid) ++ [tx] := by
  have hmem : acc ∈ s.accounts := List.mem_of_find?_eq_some hfind
  have hpred := List.find?_some hfind
  have hid : acc.id = aid := by
    simp only [Bool.and_eq_true, beq_iff_eq] at hpred
    exact hpred.1
  refine ⟨{ id := s.nextTxId, accountId := aid, type := .deposit, amount := x,
            description := "Funding from " ++ src.type.name, status := .completed,
            createdAt := now, processedAt := some now }, ?_, rfl, rfl, rfl, ?_, ?_⟩
  · have hupd := find?_id_map_update s.accounts aid acc x hmem hid huniq
    have hcond : ¬(acc.status ≠ AccountStatus.active) := by simp [hact]
    unfold fundAccount
    rw [hfind]
    dsimp only
    rw [if_neg hcond]
    dsimp only
    rw [hupd]
    dsimp only
    rw [radd_eq_add]
  · simp [fundAccount, hfind, hact]
  · simp [fundAccount, hfind, hact, List.filter_append]

/-- Concrete database for the funding scenario of §8: one active
checking account of user 7 with balance 100.00. -/
def fundS0 : DBState := ⟨[⟨1, 7, "1000", .checking, 100, .active, 0⟩], [], 2, 1⟩

/-- The account row of `fundS0`. -/
def fundAcc0 : Account := ⟨1, 7, "1000", .checking, 100, .active, 0⟩

/-- A validated bank funding source. -/
def fundSrc : FundingSource := ⟨.bank, "123", some "123456789"⟩

/-- Witness for C1, including the spec's §8 scenario: funding the
balance-100.00 account with 50.00 succeeds as described, and a second
sequential 50.00 call yields balance 200.00 with exactly 2 completed
transaction rows. -/
theorem fundAccount_deposit_completes_witness :
    (ownedAccount fundS0 7 1 = some fundAcc0) ∧
    fundAcc0.status = AccountStatus.active ∧
    (∀ b ∈ fundS0.accounts, b.id = 1 → b = fundAcc0) ∧
    mkRat 1 100 ≤ (50 : ℚ) ∧
    (∃ tx : Transaction,
      (fundAccount fundS0 7 1 50 fundSrc 5).1 = .ok ⟨tx, fundAcc0.balance + 50⟩ ∧
      tx.status = .completed ∧ tx.type = .deposit ∧ tx.amount = 50 ∧
      (fundAccount fundS0 7 1 50 fundSrc 5).2.transactions = fundS0.transactions ++ [tx] ∧
      (fundAccount fundS0 7 1 50 fundSrc 5).2.transactions.filter
          (fun t => t.accountId == 1) =
        fundS0.transactions.filter (fun t => t.accountId == 1) ++ [tx]) ∧
    (fundAccount (fundAccount fundS0 7 1 50 fundSrc 5).2 7 1 50 fundSrc 6).2.accounts =
      [⟨1, 7, "1000", .checking, 200, .active, 0⟩] ∧
    ((fundAccount (fundAccount fundS0 7 1 50 fundSrc 5).2 7 1 50 fundSrc 6).2.transactions.filter
        (fun t => t.status == TxStatus.completed)).length = 2 :=
  ⟨by decide, by decide, by decide, by decide,
    fundAccount_deposit_completes fundS0 7 1 50 fundSrc 5 fundAcc0
      (by decide) (by decide) (by decide) (by decide),
    by decide, by decide⟩

/-! ## Claim C2: no lost updates across any interleaving -/

/-- Sequence of `fundAccount` calls against one account.  The code
runs the transaction-insert and the SQL-side balance increment inside
one synchronous `db.transaction` (account.ts lines 100-129), so each
call is one atomic transition of the database; a concurrent execution
of N calls is therefore some sequential order of the N amounts, and
quantifying over all lists of amounts covers every interleaving. -/
def fundMany (u aid : Nat) (src : FundingSource) (now : Nat)
    (s : DBState) (amounts : List ℚ) : DBState :=
  amounts.foldl (fun st x => (fundAccount st u aid x src now).2) s

/-- Shape of the database after one successful `fundAccount` call: one
transaction row appended, the balance of the rows with `id = aid`
increased by `x` (SQL-side `balance + amount`), the transaction id
counter advanced. -/
theorem fundAccount_state_eq
    (s : DBState) (u aid : Nat) (x : ℚ) (src : FundingSource) (now : Nat)
    (acc : Account)
    (hfind : ownedAccount s u aid = some acc)
    (hact : acc.status = AccountStatus.active) :
    (fundAccount s u aid x src now).2 =
      { s with
        transactions := s.transactions ++
          [⟨s.nextTxId, aid, .deposit, x, "Funding from " ++ src.type.name,
            .completed, now, some now⟩]
        accounts := s.accounts.map (fun a =>
          if a.id == aid then { a with balance := radd a.balance x } else a)
        nextTxId := s.nextTxId + 1 } := by
  simp [fundAccount, hfind, hact]

/-- Helper: the ownership lookup commutes with the balance update map,
which changes no id and no owner. -/
theorem ownedAccount_map_update (l : List Account) (u aid : Nat) (x : ℚ) :
    (l.map (fun a =>
      if a.id == aid then { a with balance := radd a.balance x } else a)).find?
        (fun a => a.id == aid && a.userId == u) =
      Option.map (fun a =>
        if a.id == aid then { a with balance := radd a.balance x } else a)
        (l.find? (fun a => a.id == aid && a.userId == u)) := by
  rw [List.find?_map]
  have hp : ∀ a : Account,
      ((fun a : Account => a.id == aid && a.userId == u) ∘
        (fun a : Account =>
          if a.id == aid then { a with balance := radd a.balance x } else a)) a =
        (a.id == aid && a.userId == u) := by
    intro a
    by_cases h : a.id = aid
    · simp [Function.comp, h]
    · simp [Function.comp, h]
  rw [funext hp]

/-- Core induction for C2: any sequence of amounts applied by
`fundMany` to an active owned account adds exactly the sum of the
amounts to its balance and appends exactly one completed deposit row
per amount. -/
theorem fundMany_spec (u aid : Nat) (src : FundingSource) (now : Nat) :
    ∀ (amounts : List ℚ) (s : DBState) (acc : Account),
      ownedAccount s u aid = some acc →
      acc.status = AccountStatus.active →
      (∀ b ∈ s.accounts, b.id = aid → b = acc) →
      ownedAccount (fundMany u aid src now s amounts) u aid =
        some { acc with balance := acc.balance + amounts.sum } ∧
      ∃ txs : List Transaction,
        (fundMany u aid src now s amounts).transactions = s.transactions ++ txs ∧
        txs.length = amounts.length ∧
        txs.map Transaction.amount = amounts ∧
        ∀ t ∈ txs, t.status = .completed ∧ t.type = .deposit ∧ t.accountId = aid := by
  intro amounts
  induction amounts with
  | nil =>
    intro s acc hfind _ _
    refine ⟨?_, [], by simp [fundMany], rfl, rfl, by simp⟩
    simpa [fundMany] using hfind
  | cons x xs ih =>
    intro s acc hfind hact huniq
    have hpred := List.find?_some hfind
    have hid : acc.id = aid := by
      simp only [Bool.and_eq_true, beq_iff_eq] at hpred
      exact hpred.1
    have hstep := fundAccount_state_eq s u aid x src now acc hfind hact
    set s₁ := (fundAccount s u aid x src now).2 with hs₁
    set acc₁ : Account := { acc with balance := radd acc.balance x } with hacc₁
    have hfind₁ : ownedAccount s₁ u aid = some acc₁ := by
      rw [hstep]
      show (s.accounts.map _).find? _ = some acc₁
      rw [ownedAccount_map_update]
      rw [show s.accounts.find? (fun a => a.id == aid && a.userId == u) = some acc from hfind]
      simp [hid, hacc₁]
    have hact₁ : acc₁.status = AccountStatus.active := hact
    have huniq₁ : ∀ b ∈ s₁.accounts, b.id = aid → b = acc₁ := by
      rw [hstep]
      intro b hb hbid
      rcases List.mem_map.mp hb with ⟨c, hc, hcb⟩
      by_cases hcid : c.id = aid
      · have hceq : c = acc := huniq c hc hcid
        subst hceq
        rw [← hcb]
        simp [hacc₁, hcid]
      · rw [← hcb] at hbid
        simp [hcid] at hbid
    have hrest := ih s₁ acc₁ hfind₁ hact₁ huniq₁
    have hfold : fundMany u aid src now s (x :: xs) = fundMany u aid src now s₁ xs := rfl
    constructor
    · rw [hfold, hrest.1]
      simp [hacc₁, radd_eq_add, add_assoc]
    · rcases hrest.2 with ⟨txs, htxs, hlen, hmap, hall⟩
      refine ⟨⟨s.nextTxId, aid, .deposit, x, "Funding from " ++ src.type.name,
        .completed, now, some now⟩ :: txs, ?_, by simp [hlen], by simp [hmap], ?_⟩
      · rw [hfold, htxs, hstep]
        simp
      · intro t ht
        rcases List.mem_cons.mp ht with h | h
        · subst h; exact ⟨rfl, rfl, rfl⟩
        · exact hall t h

/-- C2: for any sequence of amounts applied against one active owned
account (any serialization of N concurrent calls — each call is one
atomic `db.transaction` whose balance write is the SQL-side increment
`balance + amount`, so no call can act on a stale balance), the final
balance is the initial balance plus the sum of all amounts, exactly N
transactions are appended and all have status `completed`; moreover
every other interleaving (permutation) of the same amounts ends at the
same balance — no lost updates. -/
theorem fundMany_no_lost_updates
    (u aid : Nat) (src : FundingSource) (now : Nat)
    (s : DBState) (acc : Account) (amounts : List ℚ)
    (hfind : ownedAccount s u aid = some acc)
    (hact : acc.status = AccountStatus.active)
    (huniq : ∀ b ∈ s.accounts, b.id = aid → b = acc) :
    ownedAccount (fundMany u aid src now s amounts) u aid =
      some { acc with balance := acc.balance + amounts.sum } ∧
    (∃ txs : List Transaction,
      (fundMany u aid src now s amounts).transactions = s.transactions ++ txs ∧
      txs.length = amounts.length ∧
      txs.map Transaction.amount = amounts ∧
      ∀ t ∈ txs, t.status = .completed ∧ t.type = .deposit ∧ t.accountId = aid) ∧
    ∀ other : List ℚ, other.Perm amounts →
      ownedAccount (fundMany u aid src now s other) u aid =
        some { acc with balance := acc.balance + amounts.sum } := by
  have h := fundMany_spec u aid src now amounts s acc hfind hact huniq
  refine ⟨h.1, h.2, ?_⟩
  intro other hperm
  have h' := fundMany_spec u aid src now other s acc hfind hact huniq
  rw [h'.1, hperm.sum_eq]

/-- Fresh zero-balance active account of user 7, for the §8 lost-update
scenario. -/
def freshS0 : DBState := ⟨[⟨1, 7, "1000", .checking, 0, .active, 0⟩], [], 2, 1⟩

/-- The account row of `freshS0`. -/
def freshAcc0 : Account := ⟨1, 7, "1000", .checking, 0, .active, 0⟩

set_option maxRecDepth 40000 in
/-- Witness for C2, §8's lost-update test: 100 funding calls of amount
1 against a fresh balance-0 account leave balance exactly 100 and
exactly 100 completed transaction rows. -/
theorem fundMany_no_lost_updates_witness :
    (ownedAccount freshS0 7 1 = some freshAcc0) ∧
    freshAcc0.status = AccountStatus.active ∧
    (∀ b ∈ freshS0.accounts, b.id = 1 → b = freshAcc0) ∧
    (ownedAccount (fundMany 7 1 fundSrc 5 freshS0 (List.replicate 100 1)) 7 1 =
      some { freshAcc0 with balance := freshAcc0.balance + (List.replicate 100 (1 : ℚ)).sum } ∧
      (∃ txs : List Transaction,
        (fundMany 7 1 fundSrc 5 freshS0 (List.replicate 100 1)).transactions =
          freshS0.transactions ++ txs ∧
        txs.length = (List.replicate 100 (1 : ℚ)).length ∧
        txs.map Transaction.amount = List.replicate 100 (1 : ℚ) ∧
        ∀ t ∈ txs, t.status = .completed ∧ t.type = .deposit ∧ t.accountId = 1) ∧
      ∀ other : List ℚ, other.Perm (List.replicate 100 (1 : ℚ)) →
        ownedAccount (fundMany 7 1 fundSrc 5 freshS0 other) 7 1 =
          some { freshAcc0 with balance := freshAcc0.balance + (List.replicate 100 (1 : ℚ)).sum }) ∧
    (ownedAccount (fundMany 7 1 fundSrc 5 freshS0 (List.replicate 100 1)) 7 1 =
      some ⟨1, 7, "1000", .checking, 100, .active, 0⟩) ∧
    ((fundMany 7 1 fundSrc 5 freshS0 (List.replicate 100 1)).transactions.filter
      (fun t => t.status == TxStatus.completed)).length = 100 :=
  ⟨by decide, by decide, by decide,
    fundMany_no_lost_updates 7 1 fundSrc 5 freshS0 freshAcc0 (List.replicate 100 1)
      (by decide) (by decide) (by decide),
    by decide, by decide⟩

/-! ## Claim C5: transaction history ordering -/

/-- C5 (amended): `getTransactions` returns the account's transactions
ordered by `createdAt` descending, as a permutation of the account's
rows, each enriched with the account's type.  The query (account.ts
line 157) orders by the single key `created_at` and supplies no
secondary key, so SQL fixes no relative order for rows with equal
`created_at`; the embedding realises one legal behaviour (a stable
sort, which keeps ties in insertion order, earlier row first). -/
theorem getTransactions_sorted_desc
    (s : DBState) (u aid : Nat) (acc : Account)
    (hfind : ownedAccount s u aid = some acc) :
    ∃ es : List EnrichedTransaction,
      getTransactions s u aid = .ok es ∧
      (es.map EnrichedTransaction.tx).Pairwise createdAtDesc ∧
      (es.map EnrichedTransaction.tx).Perm
        (s.transactions.filter (fun t => t.accountId == aid)) ∧
      ∀ e ∈ es, e.accountType = acc.accountType := by
  have hcomp :
      (EnrichedTransaction.tx ∘ fun t => (⟨t, acc.accountType⟩ : EnrichedTransaction)) =
        id := rfl
  refine ⟨(List.insertionSort createdAtDesc
      (s.transactions.filter (fun t => t.accountId == aid))).map
        (fun t => ⟨t, acc.accountType⟩), ?_, ?_, ?_, ?_⟩
  · simp [getTransactions, hfind]
  · rw [List.map_map, hcomp, List.map_id]
    exact List.sorted_insertionSort createdAtDesc _
  · rw [List.map_map, hcomp, List.map_id]
    exact List.perm_insertionSort createdAtDesc _
  · intro e he
    rcases List.mem_map.mp he with ⟨t, _, rfl⟩
    rfl

/-- History scenario store: three transactions of account 1 created at
times 100 < 200 < 300 (inserted in the order 100, 300, 200). -/
def histS0 : DBState :=
  ⟨[⟨1, 7, "1000", .checking, 100, .active, 0⟩],
   [⟨1, 1, .deposit, 10, "Funding from bank", .completed, 100, none⟩,
    ⟨2, 1, .deposit, 20, "Funding from bank", .completed, 300, none⟩,
    ⟨3, 1, .deposit, 30, "Funding from bank", .completed, 200, none⟩], 2, 4⟩

/-- Witness for C5: on `histS0` the history comes back newest first,
[T3, T2, T1]. -/
theorem getTransactions_sorted_desc_witness :
    (ownedAccount histS0 7 1 = some ⟨1, 7, "1000", .checking, 100, .active, 0⟩) ∧
    (∃ es : List EnrichedTransaction,
      getTransactions histS0 7 1 = .ok es ∧
      (es.map EnrichedTransaction.tx).Pairwise createdAtDesc ∧
      (es.map EnrichedTransaction.tx).Perm
        (histS0.transactions.filter (fun t => t.accountId == 1)) ∧
      ∀ e ∈ es, e.accountType =
        (⟨1, 7, "1000", .checking, 100, .active, 0⟩ : Account).accountType) ∧
    getTransactions histS0 7 1 =
      .ok [⟨⟨2, 1, .deposit, 20, "Funding from bank", .completed, 300, none⟩, .checking⟩,
           ⟨⟨3, 1, .deposit, 30, "Funding from bank", .completed, 200, none⟩, .checking⟩,
           ⟨⟨1, 1, .deposit, 10, "Funding from bank", .completed, 100, none⟩, .checking⟩] :=
  ⟨by decide,
    getTransactions_sorted_desc histS0 7 1 ⟨1, 7, "1000", .checking, 100, .active, 0⟩
      (by decide),
    by decide⟩

/-- Two transactions of account 1 with the same `createdAt`, inserted
as row 1 then row 2. -/
def tieS0 : DBState :=
  ⟨[⟨1, 7, "1000", .checking, 100, .active, 0⟩],
   [⟨1, 1, .deposit, 10, "Funding from bank", .completed, 100, none⟩,
    ⟨2, 1, .deposit, 20, "Funding from bank", .completed, 100, none⟩], 2, 3⟩

/-- Counterexample for C5 as stated: the claim's tie-break ("for equal
`createdAt` the later-inserted transaction comes first") fails — on
`tieS0` the embedded query returns the earlier-inserted row 1 before
the later-inserted row 2, not [row 2, row 1] as the claim requires.
The source supplies no tie-break key, so the claimed order is not
guaranteed by the code. -/
theorem getTransactions_tie_order_cex :
    getTransactions tieS0 7 1 =
      .ok [⟨⟨1, 1, .deposit, 10, "Funding from bank", .completed, 100, none⟩, .checking⟩,
           ⟨⟨2, 1, .deposit, 20, "Funding from bank", .completed, 100, none⟩, .checking⟩] ∧
    getTransactions tieS0 7 1 ≠
      .ok [⟨⟨2, 1, .deposit, 20, "Funding from bank", .completed, 100, none⟩, .checking⟩,
           ⟨⟨1, 1, .deposit, 10, "Funding from bank", .completed, 100, none⟩, .checking⟩] := by
  exact ⟨by decide, by decide⟩

/-! ## Claim C6: the identifier-generation loop has no retry bound -/

/-- Generator oracle that always produces the same account number. -/
def constGen : Nat → String := fun _ => "1111111111"

/-- Store in which the only number `constGen` can produce is already
taken (by an account of user 9). -/
def exhaustedS : DBState := ⟨[⟨1, 9, "1111111111", .checking, 0, .active, 0⟩], [], 2, 1⟩

/-- Helper: when every candidate the generator produces collides with
an existing account number, the `while (!isUnique)` loop never finds a
fresh number, at any fuel. -/
theorem findFresh_all_collide (s : DBState) (gen : Nat → String)
    (hcollide : ∀ i, ∃ a ∈ s.accounts, a.accountNumber = gen i) :
    ∀ fuel i, findFresh s gen fuel i = none := by
  intro fuel
  induction fuel with
  | zero => intro i; rfl
  | succ n ih =>
    intro i
    rcases hcollide i with ⟨a, ha, hnum⟩
    have hsome : (s.accounts.find? (fun b => b.accountNumber == gen i)).isSome :=
      List.find?_isSome.mpr ⟨a, ha, by simp [hnum]⟩
    simp [findFresh, hsome, ih]

/-- Helper around `findFresh_all_collide`: with no type conflict for
the caller and a fully colliding generator, `createAccount` completes
within `fuel` iterations for no `fuel` whatsoever. -/
theorem createAccount_spin
    (s : DBState) (gen : Nat → String) (u : Nat) (t : AccountType) (now : Nat)
    (hnoconf : s.accounts.find? (fun a => a.userId == u && a.accountType == t) = none)
    (hcollide : ∀ i, ∃ a ∈ s.accounts, a.accountNumber = gen i) :
    ∀ fuel, createAccount fuel gen s u t now = none := by
  intro fuel
  simp [createAccount, hnoconf, findFresh_all_collide s gen hcollide fuel 0]

/-- C6 (amended): the generate-and-check loop in `createAccount`
(account.ts lines 42-46) has no retry bound and no
`ExhaustedIdentifierSpace` error (no such error exists anywhere in the
code, see `ApiError`): on a store state where every generated
candidate collides with an existing account number, the loop never
terminates — `createAccount` completes within `fuel` iterations for no
`fuel` whatsoever. -/
theorem createAccount_unbounded_on_exhaustion
    (s : DBState) (gen : Nat → String) (u : Nat) (t : AccountType) (now : Nat)
    (hnoconf : s.accounts.find? (fun a => a.userId == u && a.accountType == t) = none)
    (hcollide : ∀ i, ∃ a ∈ s.accounts, a.accountNumber = gen i) :
    ∀ fuel, createAccount fuel gen s u t now = none :=
  createAccount_spin s gen u t now hnoconf hcollide

/-- Witness for C6's amended statement on the concrete exhausted
store, at fuel 500. -/
theorem createAccount_unbounded_on_exhaustion_witness :
    (exhaustedS.accounts.find?
      (fun a => a.userId == 7 && a.accountType == AccountType.checking) = none) ∧
    (∀ i, ∃ a ∈ exhaustedS.accounts, a.accountNumber = constGen i) ∧
    createAccount 500 constGen exhaustedS 7 AccountType.checking 0 = none :=
  ⟨by decide,
    fun _ => ⟨⟨1, 9, "1111111111", .checking, 0, .active, 0⟩, by decide, rfl⟩,
    createAccount_unbounded_on_exhaustion exhaustedS constGen 7 .checking 0 (by decide)
      (fun _ => ⟨⟨1, 9, "1111111111", .checking, 0, .active, 0⟩, by decide, rfl⟩) 500⟩

/-- Counterexample for C6 as stated: after one million iterations on
the exhausted store the loop of `createAccount` is still running; it
has no maximum retry count and never surfaces an
`ExhaustedIdentifierSpace` error (the code's error type has no such
case). -/
theorem createAccount_retry_bound_cex :
    createAccount 1000000 constGen exhaustedS 7 AccountType.checking 0 = none :=
  createAccount_spin exhaustedS constGen 7 .checking 0 (by decide)
    (fun _ => ⟨⟨1, 9, "1111111111", .checking, 0, .active, 0⟩, by decide, rfl⟩) 1000000

/-! ## Claim C8: the duplicate-type conflict check ignores status -/

/-- C8 (amended): `createAccount` fails with `Conflict` exactly when
the caller already holds an account of the requested type of ANY
status — the check (account.ts lines 25-36) filters on `user_id` and
`account_type` only and never consults `status`, so a `closed` account
of the type also blocks creation. -/
theorem createAccount_conflict_iff
    (fuel : Nat) (gen : Nat → String) (s : DBState) (u : Nat)
    (t : AccountType) (now : Nat) :
    createAccount fuel gen s u t now = some (.error .conflict, s) ↔
      ∃ a ∈ s.accounts, a.userId = u ∧ a.accountType = t := by
  constructor
  · intro h
    cases hfind : s.accounts.find? (fun a => a.userId == u && a.accountType == t) with
    | none =>
      exfalso
      rw [createAccount, hfind] at h
      cases hff : findFresh s gen fuel 0 with
      | none => rw [hff] at h; simp at h
      | some n => rw [hff] at h; simp at h
    | some a =>
      have hp := List.find?_some hfind
      have hm := List.mem_of_find?_eq_some hfind
      simp only [Bool.and_eq_true, beq_iff_eq] at hp
      exact ⟨a, hm, hp.1, hp.2⟩
  · rintro ⟨a, ha, h1, h2⟩
    have hsome : (s.accounts.find? (fun b => b.userId == u && b.accountType == t)).isSome :=
      List.find?_isSome.mpr ⟨a, ha, by simp [h1, h2]⟩
    rcases Option.isSome_iff_exists.mp hsome with ⟨b, hb⟩
    simp [createAccount, hb]

/-- Store whose only account is a CLOSED checking account of user 7. -/
def closedOnlyS : DBState := ⟨[⟨1, 7, "3333333333", .checking, 0, .closed, 0⟩], [], 2, 1⟩

/-- Counterexample for C8 as stated: user 7's only checking account is
`closed`, yet `createAccount` fails with `Conflict` instead of
succeeding — the conflict check does not restrict itself to non-closed
accounts. -/
theorem createAccount_closed_conflict_cex :
    createAccount 5 (fun _ => "4444444444") closedOnlyS 7 AccountType.checking 0 =
      some (.error .conflict, closedOnlyS) := by decide

/-! ## Claim C7: ledger consistency invariant -/

/-- Net ledger amount of an account: the sum of the amounts of its
completed deposit rows minus the sum of the amounts of its completed
withdrawal rows. -/
def ledgerTotalTx (txs : List Transaction) (aid : Nat) : ℚ :=
  ((txs.filter (fun t => t.accountId == aid && t.status == TxStatus.completed &&
      t.type == TxType.deposit)).map Transaction.amount).sum -
  ((txs.filter (fun t => t.accountId == aid && t.status == TxStatus.completed &&
      t.type == TxType.withdrawal)).map Transaction.amount).sum

/-- Appending a completed deposit row moves the net ledger amount of
its account up by its amount and leaves every other account's net
amount unchanged. -/
theorem ledgerTotalTx_append_deposit (txs : List Transaction) (tx : Transaction) (aid : Nat)
    (hdep : tx.type = TxType.deposit) (hst : tx.status = TxStatus.completed) :
    ledgerTotalTx (txs ++ [tx]) aid =
      if tx.accountId = aid then ledgerTotalTx txs aid + tx.amount
      else ledgerTotalTx txs aid := by
  by_cases h : tx.accountId = aid
  · simp only [if_pos h]
    simp [ledgerTotalTx, List.filter_append, h, hdep, hst]
    ring
  · simp only [if_neg h]
    simp [ledgerTotalTx, List.filter_append, h, hdep, hst]

/-- An account id that appears in no transaction row has net ledger
amount 0. -/
theorem ledgerTotalTx_eq_zero (txs : List Transaction) (aid : Nat)
    (h : ∀ t ∈ txs, ¬t.accountId = aid) : ledgerTotalTx txs aid = 0 := by
  have h1 : txs.filter (fun t => t.accountId == aid && t.status == TxStatus.completed &&
      t.type == TxType.deposit) = [] := by
    rw [List.filter_eq_nil]
    intro t ht
    simp [h t ht]
  have h2 : txs.filter (fun t => t.accountId == aid && t.status == TxStatus.completed &&
      t.type == TxType.withdrawal) = [] := by
    rw [List.filter_eq_nil]
    intro t ht
    simp [h t ht]
  simp [ledgerTotalTx, h1, h2]

/-- One call of the account router's two mutations, with all inputs
(including the generator oracle and loop fuel for `createAccount`). -/
inductive Op where
  | create (fuel : Nat) (gen : Nat → String) (userId : Nat) (t : AccountType) (now : Nat)
  | fund (userId accountId : Nat) (amount : ℚ) (src : FundingSource) (now : Nat)

/-- Database transition of one call: an error (or a still-running
create loop) leaves the state unchanged. -/
def applyOp (s : DBState) : Op → DBState
  | .create fuel gen u t now =>
    match createAccount fuel gen s u t now with
    | some (_, s') => s'
    | none => s
  | .fund u aid x src now => (fundAccount s u aid x src now).2

/-- State after running a sequence of calls against the empty
database. -/
def runOps (ops : List Op) : DBState := ops.foldl applyOp DBState.init

/-- Preservation: each call keeps (1) account ids below the
autoincrement counter, (2) transaction account ids below the counter,
and (3) every balance equal to its account's net ledger amount. -/
theorem applyOp_preserves (s : DBState) (op : Op)
    (hacc : ∀ a ∈ s.accounts, a.id < s.nextAccountId)
    (htx : ∀ t ∈ s.transactions, t.accountId < s.nextAccountId)
    (hbal : ∀ a ∈ s.accounts, a.balance = ledgerTotalTx s.transactions a.id) :
    (∀ a ∈ (applyOp s op).accounts, a.id < (applyOp s op).nextAccountId) ∧
    (∀ t ∈ (applyOp s op).transactions, t.accountId < (applyOp s op).nextAccountId) ∧
    (∀ a ∈ (applyOp s op).accounts,
      a.balance = ledgerTotalTx (applyOp s op).transactions a.id) := by
  cases op with
  | create fuel gen u t now =>
    cases hconf : s.accounts.find? (fun a => a.userId == u && a.accountType == t) with
    | some a0 =>
      have hred : applyOp s (.create fuel gen u t now) = s := by
        simp [applyOp, createAccount, hconf]
      rw [hred]
      exact ⟨hacc, htx, hbal⟩
    | none =>
      cases hff : findFresh s gen fuel 0 with
      | none =>
        have hred : applyOp s (.create fuel gen u t now) = s := by
          simp [applyOp, createAccount, hconf, hff]
        rw [hred]
        exact ⟨hacc, htx, hbal⟩
      | some n =>
        have hred : applyOp s (.create fuel gen u t now) =
            { s with
              accounts := s.accounts ++
                [⟨s.nextAccountId, u, n, t, 0, .active, now⟩]
              nextAccountId := s.nextAccountId + 1 } := by
          simp [applyOp, createAccount, hconf, hff]
        rw [hred]
        refine ⟨?_, ?_, ?_⟩
        · intro a ha
          rcases List.mem_append.mp ha with h | h
          · exact Nat.lt_succ_of_lt (hacc a h)
          · rcases List.mem_singleton.mp h with rfl
            exact Nat.lt_succ_self _
        · intro tx htx'
          exact Nat.lt_succ_of_lt (htx tx htx')
        · intro a ha
          rcases List.mem_append.mp ha with h | h
          · exact hbal a h
          · rcases List.mem_singleton.mp h with rfl
            have : ∀ tr ∈ s.transactions, ¬tr.accountId = s.nextAccountId := fun tr htr =>
              Nat.ne_of_lt (htx tr htr)
            exact (ledgerTotalTx_eq_zero s.transactions s.nextAccountId this).symm
  | fund u aid x src now =>
    cases hfind : ownedAccount s u aid with
    | none =>
      have hred : applyOp s (.fund u aid x src now) = s := by
        simp [applyOp, fundAccount, hfind]
      rw [hred]
      exact ⟨hacc, htx, hbal⟩
    | some acc =>
      by_cases hst : acc.status = AccountStatus.active
      · have hstate := fundAccount_state_eq s u aid x src now acc hfind hst
        have hid : acc.id = aid := by
          have hp := List.find?_some hfind
          simp only [Bool.and_eq_true, beq_iff_eq] at hp
          exact hp.1
        have haidlt : aid < s.nextAccountId :=
          hid ▸ hacc acc (List.mem_of_find?_eq_some hfind)
        have hred : applyOp s (.fund u aid x src now) = (fundAccount s u aid x src now).2 := rfl
        rw [hred, hstate]
        refine ⟨?_, ?_, ?_⟩
        · intro a ha
          rcases List.mem_map.mp ha with ⟨b, hb, hba⟩
          have hbid : a.id = b.id := by
            by_cases h : b.id = aid <;> simp [← hba, h]
          rw [hbid]
          exact hacc b hb
        · intro tr htr
          rcases List.mem_append.mp htr with h | h
          · exact htx tr h
          · rcases List.mem_singleton.mp h with rfl
            exact haidlt
        · intro a ha
          rcases List.mem_map.mp ha with ⟨b, hb, hba⟩
          rw [ledgerTotalTx_append_deposit _ _ _ rfl rfl]
          dsimp only
          by_cases h : b.id = aid
          · have haid : a.id = aid := by rw [← hba]; simp [h]
            have habal : a.balance = radd b.balance x := by rw [← hba]; simp [h]
            rw [habal, radd_eq_add, hbal b hb, h, haid, if_pos rfl]
          · have haeq : a = b := by rw [← hba]; simp [h]
            rw [haeq, if_neg fun hc => h hc.symm]
            exact hbal b hb
      · have hred : applyOp s (.fund u aid x src now) = s := by
          simp [applyOp, fundAccount, hfind, hst]
        rw [hred]
        exact ⟨hacc, htx, hbal⟩

/-- C7: after any sequence of `createAccount`/`fundAccount` calls
starting from the empty database, every account's balance equals the
sum of its completed deposit amounts minus the sum of its completed
withdrawal amounts (a freshly created account starts at balance 0 with
an empty log, and every funding call moves balance and log together).
Every observation point of the system is `runOps ops` for some such
sequence, so this is the ledger-consistency invariant at every
observation point. -/
theorem ledger_consistency (ops : List Op) :
    ∀ a ∈ (runOps ops).accounts,
      a.balance = ledgerTotalTx (runOps ops).transactions a.id := by
  have H : ∀ (l : List Op) (s : DBState),
      (∀ a ∈ s.accounts, a.id < s.nextAccountId) →
      (∀ t ∈ s.transactions, t.accountId < s.nextAccountId) →
      (∀ a ∈ s.accounts, a.balance = ledgerTotalTx s.transactions a.id) →
      ∀ a ∈ (l.foldl applyOp s).accounts,
        a.balance = ledgerTotalTx (l.foldl applyOp s).transactions a.id := by
    intro l
    induction l with
    | nil =>
      intro s _ _ h3
      simpa using h3
    | cons op rest ih =>
      intro s h1 h2 h3
      have hp := applyOp_preserves s op h1 h2 h3
      simpa [List.foldl_cons] using ih (applyOp s op) hp.1 hp.2.1 hp.2.2
  exact H ops DBState.init (by simp [DBState.init]) (by simp [DBState.init])
    (by simp [DBState.init])

/-- A concrete run for the C7 witness: create a checking account for
user 7, then fund it with 50. -/
def demoOps : List Op :=
  [Op.create 5 constGen 7 AccountType.checking 0, Op.fund 7 1 50 fundSrc 5]

/-- Witness for C7: in the state reached by `demoOps`, the account's
balance 50 equals its net completed ledger amount. -/
theorem ledger_consistency_witness :
    ((⟨1, 7, "1111111111", .checking, 50, .active, 0⟩ : Account) ∈
      (runOps demoOps).accounts) ∧
    (⟨1, 7, "1111111111", .checking, 50, .active, 0⟩ : Account).balance =
      ledgerTotalTx (runOps demoOps).transactions
        (⟨1, 7, "1111111111", .checking, 50, .active, 0⟩ : Account).id :=
  ⟨by decide, ledger_consistency demoOps _ (by decide)⟩

/-! ## Claim C9: numeric representation of the balance (NumericModel)

The schema stores `balance` and `amount` in `real` columns (schema.ts
lines 31 and 49) — SQLite REAL, an IEEE-754 binary64 value, matching
the JS `number` the handler works with (`parseFloat`, account.ts line
75).  The SQL update `balance + amount` (line 119) is therefore a
binary64 addition: the exact sum rounded to the nearest representable
value.  The definitions below model that arithmetic exactly, over
nonnegative values in the normal range, using only kernel-computable
rational operations. -/

/-- Power of two as a rational. -/
def pow2 (e : ℤ) : ℚ := if 0 ≤ e then mkRat (2 ^ e.toNat) 1 else mkRat 1 (2 ^ (-e).toNat)

/-- Multiply a rational by 2^k on the numerator/denominator
representation. -/
def mulPow2 (q : ℚ) (k : ℤ) : ℚ :=
  if 0 ≤ k then mkRat (q.num * 2 ^ k.toNat) q.den else mkRat q.num (q.den * 2 ^ (-k).toNat)

/-- Upward scan for the floor base-2 exponent: after the scan, the
result e satisfies 2^e ≤ q < 2^(e+1) for q in the covered range. -/
def findExpGo : Nat → ℤ → ℚ → ℤ
  | 0, e, _ => e
  | k + 1, e, q => if pow2 (e + 1) ≤ q then findExpGo k (e + 1) q else e

/-- Floor base-2 exponent of a positive rational in (2^-64, 2^66). -/
def findExp (q : ℚ) : ℤ := findExpGo 130 (-64) q

/-- Round a nonnegative rational to the nearest integer, ties to even
(the IEEE-754 default rounding). -/
def roundNearestEven (r : ℚ) : ℤ :=
  let n := Int.ediv r.num r.den
  let rem := Int.emod r.num r.den
  if 2 * rem < (r.den : ℤ) then n
  else if (r.den : ℤ) < 2 * rem then n + 1
  else if n % 2 = 0 then n else n + 1

/-- Nearest IEEE-754 binary64 value (53-bit significand,
round-to-nearest-even) of a nonnegative rational in the normal range:
the value a JS number / SQLite REAL actually stores for `q`. -/
def toDouble (q : ℚ) : ℚ :=
  if q ≤ 0 then 0
  else
    let e := findExp q
    mulPow2 (mkRat (roundNearestEven (mulPow2 q (52 - e))) 1) (e - 52)

/-- Binary64 addition — what the REAL column computes for
`balance + amount`: the exact sum, rounded. -/
def addDouble (x y : ℚ) : ℚ := toDouble (radd x y)

/-- Stored balance after a sequence of REAL-column updates
`balance = balance + amount`, starting from `init`. -/
def accumulateDouble (init : ℚ) (amounts : List ℚ) : ℚ := amounts.foldl addDouble init

set_option maxRecDepth 8000 in
/-- Counterexample for C9 as stated: the balance is kept in binary64
floating point, not fixed-point/integer minor units.  Funding a
balance-0 account with $0.10 and then $0.70 — both amounts expressible
in minor units; the stored amounts are `toDouble` of the decimal
inputs, as produced by `parseFloat` — leaves a stored balance
different from the exact $0.80: accumulation drifts. -/
theorem balance_float_drift_cex :
    accumulateDouble 0 [toDouble (mkRat 1 10), toDouble (mkRat 7 10)] ≠ mkRat 4 5 := by
  decide

set_option maxRecDepth 8000 in
/-- C9 (amended): the `fundAccount` balance update adds the amount in
IEEE-754 binary64 arithmetic (REAL column / JS number), not in integer
minor units; the result is exact exactly when the values involved are
representable in binary64 — as with the integer dollar amounts of the
test suite (100 + 50 + 50 = 200 exactly) — while generic minor-unit
amounts round: 0.10 then 0.70 accumulates to the binary64 value
7205759403792793/2^53 = 0.80000000000000004…, not 0.80. -/
theorem balance_binary64_arithmetic :
    accumulateDouble 100 [50, 50] = 200 ∧
    accumulateDouble 0 [toDouble (mkRat 1 10), toDouble (mkRat 7 10)] =
      mkRat 7205759403792793 9007199254740992 := by
  exact ⟨by decide, by decide⟩
